import Mathlib

/-!
Verification of the schema-sync / query-runner core of the repository:
shallow embeddings of SqlServerDriver (column diffing, default and
table-name normalization) and PostgresQueryRunner (transactions, query
execution, DDL generation for renames and enum changes, table cache),
with theorems settling the frozen claims about them.
-/

namespace Typeorm

/-! ## Transaction protocol (PostgresQueryRunner.startTransaction /
commitTransaction / rollbackTransaction, source lines 1366-1432).

The runner state tracked by the source is the pair
(isTransactionActive, transactionDepth); we additionally log every SQL
statement issued through this.query so the emitted statement sequence can
be reasoned about.  Broadcaster events perform no SQL and are omitted. -/

structure TxState where
  isTransactionActive : Bool
  transactionDepth : Nat
  sqlLog : List String
  deriving Repr, DecidableEq

/-- Error raised by commit/rollback without an active transaction
(TransactionNotStartedError). -/
inductive TxError where
  | transactionNotStarted
  deriving Repr, DecidableEq

/-- Initial state of a fresh query runner: no active transaction, depth 0. -/
def txInit : TxState := { isTransactionActive := false, transactionDepth := 0, sqlLog := [] }

/-- Embedding of PostgresQueryRunner.startTransaction. -/
def startTransactionModel (isolationLevel : Option String) (s : TxState) : TxState :=
  let s1 : TxState := { s with isTransactionActive := true }
  let s2 : TxState :=
    if s1.transactionDepth = 0 then
      let sa : TxState := { s1 with sqlLog := s1.sqlLog ++ ["START TRANSACTION"] }
      match isolationLevel with
      | some lvl =>
          { sa with sqlLog := sa.sqlLog ++ ["SET TRANSACTION ISOLATION LEVEL " ++ lvl] }
      | none => sa
    else
      { s1 with sqlLog := s1.sqlLog ++ ["SAVEPOINT typeorm_" ++ toString s1.transactionDepth] }
  { s2 with transactionDepth := s2.transactionDepth + 1 }

/-- Embedding of PostgresQueryRunner.commitTransaction. -/
def commitTransactionModel (s : TxState) : Except TxError TxState :=
  if s.isTransactionActive = false then
    Except.error TxError.transactionNotStarted
  else
    let s2 : TxState :=
      if s.transactionDepth > 1 then
        { s with sqlLog :=
            s.sqlLog ++ ["RELEASE SAVEPOINT typeorm_" ++ toString (s.transactionDepth - 1)] }
      else
        { s with sqlLog := s.sqlLog ++ ["COMMIT"], isTransactionActive := false }
    Except.ok { s2 with transactionDepth := s2.transactionDepth - 1 }

/-- Embedding of PostgresQueryRunner.rollbackTransaction. -/
def rollbackTransactionModel (s : TxState) : Except TxError TxState :=
  if s.isTransactionActive = false then
    Except.error TxError.transactionNotStarted
  else
    let s2 : TxState :=
      if s.transactionDepth > 1 then
        { s with sqlLog :=
            s.sqlLog ++ ["ROLLBACK TO SAVEPOINT typeorm_" ++ toString (s.transactionDepth - 1)] }
      else
        { s with sqlLog := s.sqlLog ++ ["ROLLBACK"], isTransactionActive := false }
    Except.ok { s2 with transactionDepth := s2.transactionDepth - 1 }

/-! ## Query execution (PostgresQueryRunner.query, source lines 1437-1528). -/

/-- Shape of the raw result object handed back by the pg driver for one
statement: optional rows, optional rowCount, and the command tag.  An
absent field models a missing JavaScript property (hasOwnProperty false). -/
structure PgRawResult where
  rows : Option (List String)
  rowCount : Option Int
  command : String
  deriving Repr, DecidableEq

/-- Normalized raw payload of a QueryResult: DELETE/UPDATE statements get
the pair [rows, rowCount], every other command just the rows array; when
the driver returned nothing the payload stays unset. -/
inductive RawPayload where
  | pairPayload (rows : Option (List String)) (count : Option Int)
  | rowsPayload (rows : Option (List String))
  | unsetPayload
  deriving Repr, DecidableEq

/-- Embedding of the QueryResult object populated by query(): records
defaults to the empty list, affected is optional, raw as above. -/
structure QueryResultModel where
  records : List String
  affected : Option Int
  raw : RawPayload
  deriving Repr, DecidableEq

/-- Embedding of the result-normalization block of query() (source lines
1481-1506): the if (raw) block that fills records, affected and raw. -/
def normalizeQueryResult (raw : Option PgRawResult) : QueryResultModel :=
  let result : QueryResultModel :=
    { records := [], affected := none, raw := RawPayload.unsetPayload }
  match raw with
  | none => result
  | some r =>
      let result :=
        match r.rows with
        | some rs => { result with records := rs }
        | none => result
      let result :=
        match r.rowCount with
        | some n => { result with affected := some n }
        | none => result
      if r.command = "DELETE" ∨ r.command = "UPDATE" then
        { result with raw := RawPayload.pairPayload r.rows r.rowCount }
      else
        { result with raw := RawPayload.rowsPayload r.rows }

/-- Errors query() can raise: QueryRunnerAlreadyReleasedError before doing
anything when the runner was released, and QueryFailedError wrapping the
driver error together with the offending SQL text and parameters. -/
inductive QueryError where
  | alreadyReleased
  | queryFailed (query : String) (parameters : List String) (driverError : String)
  deriving Repr, DecidableEq

/-- Embedding of PostgresQueryRunner.query.  The underlying driver call is
modelled by its outcome driverOutcome (success with a raw result object or
a driver error); logging, broadcasting and timing perform no SQL and are
omitted. -/
def queryModel (isReleased : Bool) (driverOutcome : Except String PgRawResult)
    (query : String) (parameters : List String) :
    Except QueryError QueryResultModel :=
  if isReleased then
    Except.error QueryError.alreadyReleased
  else
    match driverOutcome with
    | Except.error err => Except.error (QueryError.queryFailed query parameters err)
    | Except.ok raw => Except.ok (normalizeQueryResult (some raw))

/-! ## Theorems for claims C4, C7, C8. -/

/-- C4: three nested startTransaction() calls followed by three
commitTransaction() calls issue exactly one transaction start, then two
savepoints, then two savepoint releases, then one final COMMIT, in that
order; in general depth 0 to 1 issues the real transaction start, deeper
nesting issues the named savepoint typeorm_(depth), commit at depth > 1
releases the innermost savepoint typeorm_(depth-1) while commit at depth 1
issues COMMIT, and rollback mirrors this with ROLLBACK TO SAVEPOINT /
ROLLBACK. -/
theorem c4_transaction_depth_protocol :
    (commitTransactionModel
        (startTransactionModel none
          (startTransactionModel none (startTransactionModel none txInit)))
      >>= commitTransactionModel >>= commitTransactionModel)
      = Except.ok
          { isTransactionActive := false, transactionDepth := 0,
            sqlLog :=
              ["START TRANSACTION", "SAVEPOINT typeorm_1", "SAVEPOINT typeorm_2",
               "RELEASE SAVEPOINT typeorm_2", "RELEASE SAVEPOINT typeorm_1", "COMMIT"] }
    ∧ (∀ s : TxState, s.transactionDepth = 0 →
        (startTransactionModel none s).sqlLog = s.sqlLog ++ ["START TRANSACTION"]
          ∧ (startTransactionModel none s).transactionDepth = 1)
    ∧ (∀ s : TxState, 0 < s.transactionDepth →
        (startTransactionModel none s).sqlLog
            = s.sqlLog ++ ["SAVEPOINT typeorm_" ++ toString s.transactionDepth]
          ∧ (startTransactionModel none s).transactionDepth = s.transactionDepth + 1)
    ∧ (∀ s : TxState, s.isTransactionActive = true → 1 < s.transactionDepth →
        commitTransactionModel s
          = Except.ok
              { s with
                sqlLog :=
                  s.sqlLog ++ ["RELEASE SAVEPOINT typeorm_" ++ toString (s.transactionDepth - 1)],
                transactionDepth := s.transactionDepth - 1 })
    ∧ (∀ s : TxState, s.isTransactionActive = true → s.transactionDepth = 1 →
        commitTransactionModel s
          = Except.ok
              { isTransactionActive := false, transactionDepth := 0,
                sqlLog := s.sqlLog ++ ["COMMIT"] })
    ∧ (∀ s : TxState, s.isTransactionActive = true → 1 < s.transactionDepth →
        rollbackTransactionModel s
          = Except.ok
              { s with
                sqlLog :=
                  s.sqlLog
                    ++ ["ROLLBACK TO SAVEPOINT typeorm_" ++ toString (s.transactionDepth - 1)],
                transactionDepth := s.transactionDepth - 1 })
    ∧ (∀ s : TxState, s.isTransactionActive = true → s.transactionDepth = 1 →
        rollbackTransactionModel s
          = Except.ok
              { isTransactionActive := false, transactionDepth := 0,
                sqlLog := s.sqlLog ++ ["ROLLBACK"] }) := by
  refine ⟨rfl, ?_, ?_, ?_, ?_, ?_, ?_⟩
  · intro s h
    simp [startTransactionModel, h]
  · intro s h
    have h0 : ¬ s.transactionDepth = 0 := Nat.pos_iff_ne_zero.mp h
    simp [startTransactionModel, h0]
  · intro s hact h
    have h1 : s.transactionDepth > 1 := h
    simp [commitTransactionModel, hact, h1]
  · intro s hact h
    have h1 : ¬ s.transactionDepth > 1 := by omega
    simp [commitTransactionModel, hact, h1, h]
  · intro s hact h
    have h1 : s.transactionDepth > 1 := h
    simp [rollbackTransactionModel, hact, h1]
  · intro s hact h
    have h1 : ¬ s.transactionDepth > 1 := by omega
    simp [rollbackTransactionModel, hact, h1, h]

/-- Witness for c4_transaction_depth_protocol: its hypothesis-bearing
conjuncts discharged at concrete states. -/
theorem c4_transaction_depth_protocol_witness :
    (startTransactionModel none txInit).sqlLog = [] ++ ["START TRANSACTION"]
      ∧ (startTransactionModel none
          { isTransactionActive := true, transactionDepth := 2, sqlLog := [] }).sqlLog
        = [] ++ ["SAVEPOINT typeorm_2"]
      ∧ commitTransactionModel
          { isTransactionActive := true, transactionDepth := 2, sqlLog := [] }
        = Except.ok
            { isTransactionActive := true, transactionDepth := 1,
              sqlLog := [] ++ ["RELEASE SAVEPOINT typeorm_1"] }
      ∧ rollbackTransactionModel
          { isTransactionActive := true, transactionDepth := 1, sqlLog := [] }
        = Except.ok
            { isTransactionActive := false, transactionDepth := 0,
              sqlLog := [] ++ ["ROLLBACK"] } :=
  ⟨((c4_transaction_depth_protocol.2.1) txInit rfl).1,
   ((c4_transaction_depth_protocol.2.2.1)
      { isTransactionActive := true, transactionDepth := 2, sqlLog := [] } (by decide)).1,
   (c4_transaction_depth_protocol.2.2.2.1)
      { isTransactionActive := true, transactionDepth := 2, sqlLog := [] } rfl (by decide),
   (c4_transaction_depth_protocol.2.2.2.2.2.2)
      { isTransactionActive := true, transactionDepth := 1, sqlLog := [] } rfl rfl⟩

/-- C7: query() called after release() always fails with the
AlreadyReleased error whatever the driver would have returned (the released
check precedes any execution), and when the underlying driver call fails,
query() throws a QueryFailed error carrying the offending SQL text and the
parameter list. -/
theorem c7_query_release_and_failure_wrapping
    (q : String) (params : List String) :
    (∀ driverOutcome : Except String PgRawResult,
        queryModel true driverOutcome q params = Except.error QueryError.alreadyReleased)
    ∧ (∀ err : String,
        queryModel false (Except.error err) q params
          = Except.error (QueryError.queryFailed q params err)) := by
  constructor
  · intro driverOutcome
    simp [queryModel]
  · intro err
    simp [queryModel]

/-- Witness for c7_query_release_and_failure_wrapping at a concrete SQL
text, parameter list, driver outcome and driver error. -/
theorem c7_query_release_and_failure_wrapping_witness :
    queryModel true (Except.error "boom") "SELECT 1" ["p"]
        = Except.error QueryError.alreadyReleased
    ∧ queryModel false (Except.error "boom") "SELECT 1" ["p"]
        = Except.error (QueryError.queryFailed "SELECT 1" ["p"] "boom") :=
  ⟨(c7_query_release_and_failure_wrapping "SELECT 1" ["p"]).1 (Except.error "boom"),
   (c7_query_release_and_failure_wrapping "SELECT 1" ["p"]).2 "boom"⟩

/-- C8: query() normalizes the driver result into records, affected and
raw such that for DELETE and UPDATE commands the raw payload is the pair
of rows and rowCount while for every other command the raw payload is just
the rows; records and affected are populated from the driver rows and
rowCount whenever those fields are present. -/
theorem c8_query_result_normalization (r : PgRawResult) :
    ((r.command = "DELETE" ∨ r.command = "UPDATE") →
        (normalizeQueryResult (some r)).raw = RawPayload.pairPayload r.rows r.rowCount)
    ∧ (¬ (r.command = "DELETE" ∨ r.command = "UPDATE") →
        (normalizeQueryResult (some r)).raw = RawPayload.rowsPayload r.rows)
    ∧ (∀ rs : List String, r.rows = some rs → (normalizeQueryResult (some r)).records = rs)
    ∧ (∀ n : Int, r.rowCount = some n → (normalizeQueryResult (some r)).affected = some n) := by
  refine ⟨?_, ?_, ?_, ?_⟩
  · intro h
    cases hr : r.rows <;> cases hc : r.rowCount <;> simp [normalizeQueryResult, h, hr, hc]
  · intro h
    cases hr : r.rows <;> cases hc : r.rowCount <;> simp [normalizeQueryResult, h, hr, hc]
  · intro rs hr
    cases hc : r.rowCount <;>
      by_cases h : r.command = "DELETE" ∨ r.command = "UPDATE" <;>
        simp [normalizeQueryResult, h, hr, hc]
  · intro n hc
    cases hr : r.rows <;>
      by_cases h : r.command = "DELETE" ∨ r.command = "UPDATE" <;>
        simp [normalizeQueryResult, h, hr, hc]

/-- Witness for c8_query_result_normalization at concrete DELETE and
SELECT results. -/
theorem c8_query_result_normalization_witness :
    (normalizeQueryResult
        (some { rows := some ["r1"], rowCount := some 2, command := "DELETE" })).raw
        = RawPayload.pairPayload (some ["r1"]) (some 2)
    ∧ (normalizeQueryResult
        (some { rows := some ["r1"], rowCount := some 2, command := "SELECT" })).raw
        = RawPayload.rowsPayload (some ["r1"])
    ∧ (normalizeQueryResult
        (some { rows := some ["r1"], rowCount := some 2, command := "SELECT" })).records
        = ["r1"]
    ∧ (normalizeQueryResult
        (some { rows := some ["r1"], rowCount := some 2, command := "SELECT" })).affected
        = some 2 :=
  ⟨(c8_query_result_normalization
      { rows := some ["r1"], rowCount := some 2, command := "DELETE" }).1 (Or.inl rfl),
   (c8_query_result_normalization
      { rows := some ["r1"], rowCount := some 2, command := "SELECT" }).2.1 (by decide),
   (c8_query_result_normalization
      { rows := some ["r1"], rowCount := some 2, command := "SELECT" }).2.2.1 ["r1"] rfl,
   (c8_query_result_normalization
      { rows := some ["r1"], rowCount := some 2, command := "SELECT" }).2.2.2 2 rfl⟩

/-! ## String machinery: splitting and joining on a separator character.

JavaScript string values are modelled as Lean strings; the split / join
idioms of the source (value.split("'"), tablePath.join("."), target.split
(".")) are modelled on the underlying character lists. -/

/-- The single-quote character, written by code point to keep source text
free of quote literals. -/
def quoteChar : Char := Char.ofNat 39

/-- The dot character used in table paths. -/
def dotChar : Char := Char.ofNat 46

/-- Splitting a character list on a separator, JavaScript split semantics:
the result is always nonempty and separators are not kept. -/
def splitOnChar (sep : Char) : List Char → List (List Char)
  | [] => [[]]
  | c :: rest =>
    if c = sep then [] :: splitOnChar sep rest
    else
      match splitOnChar sep rest with
      | [] => [[c]]
      | seg :: segs => (c :: seg) :: segs

/-- Joining character-list segments with a separator, JavaScript join
semantics. -/
def joinWithChar (sep : Char) : List (List Char) → List Char
  | [] => []
  | [seg] => seg
  | seg :: segs => seg ++ sep :: joinWithChar sep segs

theorem splitOnChar_ne_nil (sep : Char) (l : List Char) : splitOnChar sep l ≠ [] := by
  induction l with
  | nil => simp [splitOnChar]
  | cons c rest ih =>
    by_cases h : c = sep
    · simp [splitOnChar, h]
    · cases hs : splitOnChar sep rest with
      | nil => exact absurd hs ih
      | cons s ss => simp [splitOnChar, h, hs]

theorem joinWithChar_cons_cons (sep : Char) (c : Char) (s : List Char)
    (ss : List (List Char)) :
    joinWithChar sep ((c :: s) :: ss) = c :: joinWithChar sep (s :: ss) := by
  cases ss with
  | nil => rfl
  | cons s2 ss2 => simp [joinWithChar]

theorem joinWithChar_splitOnChar (sep : Char) (l : List Char) :
    joinWithChar sep (splitOnChar sep l) = l := by
  induction l with
  | nil => rfl
  | cons c rest ih =>
    by_cases h : c = sep
    · cases hs : splitOnChar sep rest with
      | nil => exact absurd hs (splitOnChar_ne_nil sep rest)
      | cons s ss =>
        rw [hs] at ih
        simp [splitOnChar, h, hs, joinWithChar, ih]
    · cases hs : splitOnChar sep rest with
      | nil => exact absurd hs (splitOnChar_ne_nil sep rest)
      | cons s ss =>
        rw [hs] at ih
        simp only [splitOnChar, h, if_false, hs, joinWithChar_cons_cons, ih]

theorem not_mem_of_mem_splitOnChar (sep : Char) (l : List Char) (seg : List Char)
    (h : seg ∈ splitOnChar sep l) : sep ∉ seg := by
  induction l generalizing seg with
  | nil =>
    simp [splitOnChar] at h
    simp [h]
  | cons c rest ih =>
    by_cases hc : c = sep
    · simp [splitOnChar, hc] at h
      rcases h with h | h
      · simp [h]
      · exact ih seg h
    · cases hs : splitOnChar sep rest with
      | nil => exact absurd hs (splitOnChar_ne_nil sep rest)
      | cons s ss =>
        simp [splitOnChar, hc, hs] at h
        rcases h with h | h
        · subst h
          intro hmem
          rcases List.mem_cons.mp hmem with h1 | h1
          · exact hc h1.symm
          · exact ih s (by rw [hs]; exact List.mem_cons_self s ss) h1
        · exact ih seg (by rw [hs]; exact List.mem_cons_of_mem s h)

theorem splitOnChar_append (sep : Char) (seg l : List Char) (h : sep ∉ seg) :
    splitOnChar sep (seg ++ sep :: l) = seg :: splitOnChar sep l := by
  induction seg with
  | nil => simp [splitOnChar]
  | cons c s ih =>
    have hc : ¬ c = sep := fun hcc => h (hcc ▸ List.mem_cons_self c s)
    have hs : sep ∉ s := fun hmem => h (List.mem_cons_of_mem c hmem)
    rw [List.cons_append]
    rw [splitOnChar, if_neg hc, ih hs]

theorem splitOnChar_of_not_mem (sep : Char) (seg : List Char) (h : sep ∉ seg) :
    splitOnChar sep seg = [seg] := by
  induction seg with
  | nil => rfl
  | cons c s ih =>
    have hc : ¬ c = sep := fun hcc => h (hcc ▸ List.mem_cons_self c s)
    have hs : sep ∉ s := fun hmem => h (List.mem_cons_of_mem c hmem)
    rw [splitOnChar, if_neg hc, ih hs]

theorem splitOnChar_joinWithChar (sep : Char) (segs : List (List Char))
    (hne : segs ≠ []) (h : ∀ seg ∈ segs, sep ∉ seg) :
    splitOnChar sep (joinWithChar sep segs) = segs := by
  induction segs with
  | nil => exact absurd rfl hne
  | cons s ss ih =>
    cases ss with
    | nil =>
      simp only [joinWithChar]
      exact splitOnChar_of_not_mem sep s (h s (List.mem_cons_self s []))
    | cons s2 ss2 =>
      have hjoin : joinWithChar sep (s :: s2 :: ss2) = s ++ sep :: joinWithChar sep (s2 :: ss2) := rfl
      rw [hjoin, splitOnChar_append sep s _ (h s (List.mem_cons_self s _)),
        ih (by simp) (fun seg hseg => h seg (List.mem_cons_of_mem s hseg))]

/-! ## Character lowering (JavaScript toLowerCase, modelled for the basic
latin range by the core Char.toLower). -/

theorem toNat_ofNat_valid (n : Nat) (h : n.isValidChar) : (Char.ofNat n).toNat = n := by
  rw [Char.ofNat, dif_pos h]
  rfl

theorem toLower_eq (c : Char) :
    c.toLower = if c.toNat ≥ 65 ∧ c.toNat ≤ 90 then Char.ofNat (c.toNat + 32) else c := rfl

theorem toLower_toNat_of_upper (c : Char) (h : c.toNat ≥ 65 ∧ c.toNat ≤ 90) :
    c.toLower.toNat = c.toNat + 32 := by
  rw [toLower_eq, if_pos h]
  exact toNat_ofNat_valid _ (Or.inl (by omega))

theorem toLower_not_upper (c : Char) : ¬ (c.toLower.toNat ≥ 65 ∧ c.toLower.toNat ≤ 90) := by
  by_cases h : c.toNat ≥ 65 ∧ c.toNat ≤ 90
  · have h1 : c.toLower.toNat = c.toNat + 32 := toLower_toNat_of_upper c h
    omega
  · rw [toLower_eq, if_neg h]
    exact h

theorem toLower_idem (c : Char) : c.toLower.toLower = c.toLower := by
  rw [toLower_eq c.toLower, if_neg (toLower_not_upper c)]

theorem toLower_ne_of_ne (c q : Char) (hq : q.toNat < 97) (h : c ≠ q) :
    c.toLower ≠ q := by
  by_cases hc : c.toNat ≥ 65 ∧ c.toNat ≤ 90
  · intro heq
    have h1 : c.toLower.toNat = c.toNat + 32 := toLower_toNat_of_upper c hc
    rw [heq] at h1
    omega
  · rw [toLower_eq, if_neg hc]
    exact h

theorem map_toLower_idem (s : List Char) :
    (s.map Char.toLower).map Char.toLower = s.map Char.toLower := by
  induction s with
  | nil => rfl
  | cons c cs ih => simp [toLower_idem, ih]

/-! ## Default-value lower-casing
(SqlServerDriver.lowerDefaultValueIfNecessary, source lines 1107-1118):
split on single quotes, lower-case the segments at even positions (outside
quoted literals), keep odd positions (inside quoted literals) verbatim,
join back with single quotes. -/

/-- Alternating map over split segments: the Boolean says whether the
current segment is at an even index (outside quotes) and hence lower-cased;
this models map((v, i) at index parity i % 2. -/
def altLower : Bool → List (List Char) → List (List Char)
  | _, [] => []
  | lower?, seg :: segs =>
      (if lower? then seg.map Char.toLower else seg) :: altLower (!lower?) segs

theorem altLower_cons_true (s : List Char) (ss : List (List Char)) :
    altLower true (s :: ss) = s.map Char.toLower :: altLower false ss := rfl

theorem altLower_cons_false (s : List Char) (ss : List (List Char)) :
    altLower false (s :: ss) = s :: altLower true ss := rfl

theorem altLower_ne_nil (b : Bool) (segs : List (List Char)) (h : segs ≠ []) :
    altLower b segs ≠ [] := by
  cases segs with
  | nil => exact absurd rfl h
  | cons s ss => cases b <;> simp [altLower_cons_true, altLower_cons_false]

theorem not_mem_altLower (b : Bool) (segs : List (List Char))
    (h : ∀ seg ∈ segs, quoteChar ∉ seg) :
    ∀ seg ∈ altLower b segs, quoteChar ∉ seg := by
  induction segs generalizing b with
  | nil => intro seg hseg; simp [altLower] at hseg
  | cons s ss ih =>
    intro seg hseg
    have hhead : quoteChar ∉ s := h s (List.mem_cons_self s ss)
    have htail : ∀ x ∈ ss, quoteChar ∉ x := fun x hx => h x (List.mem_cons_of_mem s hx)
    cases b with
    | true =>
      rw [altLower_cons_true] at hseg
      rcases List.mem_cons.mp hseg with h1 | h1
      · subst h1
        intro hmem
        rcases List.mem_map.mp hmem with ⟨c, hc, hlow⟩
        exact toLower_ne_of_ne c quoteChar (by decide) (fun hx => hhead (hx ▸ hc)) hlow
      · exact ih false htail seg h1
    | false =>
      rw [altLower_cons_false] at hseg
      rcases List.mem_cons.mp hseg with h1 | h1
      · subst h1
        exact hhead
      · exact ih true htail seg h1

theorem altLower_altLower (b : Bool) (segs : List (List Char)) :
    altLower b (altLower b segs) = altLower b segs := by
  induction segs generalizing b with
  | nil => rfl
  | cons s ss ih =>
    cases b with
    | true =>
      rw [altLower_cons_true, altLower_cons_true, map_toLower_idem, ih false]
    | false =>
      rw [altLower_cons_false, altLower_cons_false, ih true]

/-- Character-list core of lowerDefaultValueIfNecessary. -/
def lowerDefaultChars (l : List Char) : List Char :=
  joinWithChar quoteChar (altLower true (splitOnChar quoteChar l))

/-- Embedding of SqlServerDriver.lowerDefaultValueIfNecessary.  The
JavaScript guard if (!value) passes through undefined and the empty
string unchanged. -/
def lowerDefaultValueIfNecessary : Option String → Option String
  | none => none
  | some v => if v = "" then some v else some (String.mk (lowerDefaultChars v.data))

theorem lowerDefaultChars_idem (l : List Char) :
    lowerDefaultChars (lowerDefaultChars l) = lowerDefaultChars l := by
  have hnq : ∀ seg ∈ splitOnChar quoteChar l, quoteChar ∉ seg :=
    fun seg hseg => not_mem_of_mem_splitOnChar quoteChar l seg hseg
  have h2 : ∀ seg ∈ altLower true (splitOnChar quoteChar l), quoteChar ∉ seg :=
    not_mem_altLower true (splitOnChar quoteChar l) hnq
  have h3 : altLower true (splitOnChar quoteChar l) ≠ [] :=
    altLower_ne_nil true _ (splitOnChar_ne_nil quoteChar l)
  unfold lowerDefaultChars
  rw [splitOnChar_joinWithChar quoteChar _ h3 h2, altLower_altLower]

/-! ## Table-name building and parsing (SqlServerDriver.buildTableName,
source lines 447-467, and the string case of SqlServerDriver.
parseTableName, source lines 472-533). -/

structure ParsedTableName where
  database : Option String
  schema : Option String
  tableName : String
  deriving Repr, DecidableEq

/-- JavaScript truthiness of an optional string (undefined and the empty
string are falsy). -/
def jsTruthy : Option String → Bool
  | none => false
  | some s => !(s == "")

/-- JavaScript short-circuit value || fallback for a parsed path segment. -/
def jsOrElse (s : String) (d : Option String) : Option String :=
  if s = "" then d else some s

/-- Joining path parts with dots, modelling tablePath.join("."). -/
def joinDotStrings (parts : List String) : String :=
  String.mk (joinWithChar dotChar (parts.map String.data))

/-- Splitting a path on dots, modelling target.split("."). -/
def splitDotString (s : String) : List String :=
  (splitOnChar dotChar s.data).map String.mk

/-- Embedding of SqlServerDriver.buildTableName. -/
def buildTableNameSqlServer (tableName : String) (schema database : Option String) : String :=
  let tablePath : List String := [tableName]
  let tablePath : List String :=
    if jsTruthy schema then schema.getD "" :: tablePath else tablePath
  let tablePath : List String :=
    if jsTruthy database then
      database.getD "" :: (if jsTruthy schema then tablePath else "" :: tablePath)
    else tablePath
  joinDotStrings tablePath

/-- Embedding of the string case of SqlServerDriver.parseTableName, with
the driver database and schema defaults as parameters. -/
def parseTableNameSqlServer (driverDatabase driverSchema : Option String)
    (target : String) : ParsedTableName :=
  match splitDotString target with
  | [p0, p1, p2] =>
      { database := jsOrElse p0 driverDatabase,
        schema := jsOrElse p1 driverSchema, tableName := p2 }
  | [p0, p1] =>
      { database := driverDatabase, schema := some p0, tableName := p1 }
  | _ =>
      { database := driverDatabase, schema := driverSchema, tableName := target }

theorem splitDot_joinDot (parts : List String) (hne : parts ≠ [])
    (h : ∀ p ∈ parts, dotChar ∉ p.data) :
    splitDotString (joinDotStrings parts) = parts := by
  unfold splitDotString joinDotStrings
  have hdata : (String.mk (joinWithChar dotChar (parts.map String.data))).data
      = joinWithChar dotChar (parts.map String.data) := rfl
  rw [hdata, splitOnChar_joinWithChar dotChar _ (by simpa using hne)
      (fun seg hseg => by
        rcases List.mem_map.mp hseg with ⟨p, hp, hpe⟩
        exact hpe ▸ h p hp)]
  rw [List.map_map]
  exact List.map_id parts

/-! ## Theorems for claims C9 and C10. -/

/-- C9: default-value normalization is idempotent (applying the
lower-casing normalization twice equals applying it once, so normalizing
an already-normalized default is a no-op), and the normalization
lower-cases only the segments outside single-quoted literal halves while
the segment inside the quotes is preserved verbatim. -/
theorem c9_default_normalization_idempotent :
    (∀ v : Option String,
        lowerDefaultValueIfNecessary (lowerDefaultValueIfNecessary v)
          = lowerDefaultValueIfNecessary v)
    ∧ (∀ a b c : List Char, quoteChar ∉ a → quoteChar ∉ b → quoteChar ∉ c →
        lowerDefaultChars (a ++ quoteChar :: (b ++ quoteChar :: c))
          = a.map Char.toLower ++ quoteChar :: (b ++ quoteChar :: c.map Char.toLower)) := by
  constructor
  · intro v
    match v with
    | none => rfl
    | some s =>
      by_cases h : s = ""
      · simp [lowerDefaultValueIfNecessary, h]
      · simp only [lowerDefaultValueIfNecessary, if_neg h]
        by_cases h2 : String.mk (lowerDefaultChars s.data) = ""
        · rw [if_pos h2]
        · rw [if_neg h2]
          exact congrArg (fun l => some (String.mk l)) (lowerDefaultChars_idem s.data)
  · intro a b c ha hb hc
    unfold lowerDefaultChars
    rw [splitOnChar_append quoteChar a _ ha, splitOnChar_append quoteChar b _ hb,
      splitOnChar_of_not_mem quoteChar c hc,
      altLower_cons_true, altLower_cons_false, altLower_cons_true]
    rfl

/-- Witness for c9_default_normalization_idempotent at a concrete default
value and concrete quote-free segments. -/
theorem c9_default_normalization_idempotent_witness :
    lowerDefaultValueIfNecessary (lowerDefaultValueIfNecessary (some "NEWID()"))
        = lowerDefaultValueIfNecessary (some "NEWID()")
    ∧ lowerDefaultChars ("AB".data ++ quoteChar :: ("CD".data ++ quoteChar :: "EF".data))
        = "AB".data.map Char.toLower
            ++ quoteChar :: ("CD".data ++ quoteChar :: "EF".data.map Char.toLower) :=
  ⟨c9_default_normalization_idempotent.1 (some "NEWID()"),
   c9_default_normalization_idempotent.2 "AB".data "CD".data "EF".data
      (by decide) (by decide) (by decide)⟩

/-- C10: for every non-empty table name, schema and database containing no
dot, parseTableName inverts buildTableName exactly, and when schema or
database segments are absent from the parsed string parseTableName fills
them with the driver database and schema defaults. -/
theorem c10_parse_build_round_trip
    (drvDb drvSch : Option String) (t s d : String)
    (ht : t ≠ "") (hs : s ≠ "") (hd : d ≠ "")
    (hdt : dotChar ∉ t.data) (hds : dotChar ∉ s.data) (hdd : dotChar ∉ d.data) :
    parseTableNameSqlServer drvDb drvSch (buildTableNameSqlServer t (some s) (some d))
        = { database := some d, schema := some s, tableName := t }
    ∧ parseTableNameSqlServer drvDb drvSch (buildTableNameSqlServer t none none)
        = { database := drvDb, schema := drvSch, tableName := t }
    ∧ parseTableNameSqlServer drvDb drvSch (buildTableNameSqlServer t (some s) none)
        = { database := drvDb, schema := some s, tableName := t }
    ∧ parseTableNameSqlServer drvDb drvSch (buildTableNameSqlServer t none (some d))
        = { database := some d, schema := drvSch, tableName := t } := by
  refine ⟨?_, ?_, ?_, ?_⟩
  · have hb : buildTableNameSqlServer t (some s) (some d) = joinDotStrings [d, s, t] := by
      simp [buildTableNameSqlServer, jsTruthy, hs, hd]
    have hsplit : splitDotString (joinDotStrings [d, s, t]) = [d, s, t] :=
      splitDot_joinDot [d, s, t] (by simp)
        (fun p hp => by
          simp only [List.mem_cons, List.not_mem_nil, or_false] at hp
          rcases hp with rfl | rfl | rfl
          exacts [hdd, hds, hdt])
    rw [hb, parseTableNameSqlServer, hsplit]
    simp [jsOrElse, hs, hd]
  · have hb : buildTableNameSqlServer t none none = joinDotStrings [t] := by
      simp [buildTableNameSqlServer, jsTruthy]
    have hsplit : splitDotString (joinDotStrings [t]) = [t] :=
      splitDot_joinDot [t] (by simp)
        (fun p hp => by
          simp only [List.mem_cons, List.not_mem_nil, or_false] at hp
          rcases hp with rfl
          exact hdt)
    rw [hb, parseTableNameSqlServer, hsplit]
    rfl
  · have hb : buildTableNameSqlServer t (some s) none = joinDotStrings [s, t] := by
      simp [buildTableNameSqlServer, jsTruthy, hs]
    have hsplit : splitDotString (joinDotStrings [s, t]) = [s, t] :=
      splitDot_joinDot [s, t] (by simp)
        (fun p hp => by
          simp only [List.mem_cons, List.not_mem_nil, or_false] at hp
          rcases hp with rfl | rfl
          exacts [hds, hdt])
    rw [hb, parseTableNameSqlServer, hsplit]
  · have hb : buildTableNameSqlServer t none (some d) = joinDotStrings [d, "", t] := by
      simp [buildTableNameSqlServer, jsTruthy, hd]
    have hsplit : splitDotString (joinDotStrings [d, "", t]) = [d, "", t] :=
      splitDot_joinDot [d, "", t] (by simp)
        (fun p hp => by
          simp only [List.mem_cons, List.not_mem_nil, or_false] at hp
          rcases hp with rfl | rfl | rfl
          exacts [hdd, List.not_mem_nil dotChar, hdt])
    rw [hb, parseTableNameSqlServer, hsplit]
    simp [jsOrElse, hd]

/-- Witness for c10_parse_build_round_trip at concrete identifiers. -/
theorem c10_parse_build_round_trip_witness :
    parseTableNameSqlServer (some "curdb") (some "dbo")
        (buildTableNameSqlServer "tbl" (some "sch") (some "db"))
        = { database := some "db", schema := some "sch", tableName := "tbl" }
    ∧ parseTableNameSqlServer (some "curdb") (some "dbo")
        (buildTableNameSqlServer "tbl" none none)
        = { database := some "curdb", schema := some "dbo", tableName := "tbl" } :=
  ⟨(c10_parse_build_round_trip (some "curdb") (some "dbo") "tbl" "sch" "db"
      (by decide) (by decide) (by decide) (by decide) (by decide) (by decide)).1,
   (c10_parse_build_round_trip (some "curdb") (some "dbo") "tbl" "sch" "db"
      (by decide) (by decide) (by decide) (by decide) (by decide) (by decide)).2.1⟩

/-! ## Column model and SqlServerDriver column diffing
(SqlServerDriver.findChangedColumns, source lines 799-908, with its
helpers normalizeType 624-658, normalizeDefault 663-691, normalizeIsUnique
696-699, getColumnLength 705-716, compareColumnType 1082-1091,
compareColumnLength 1093-1105). -/

/-- Declared column type of a ColumnMetadata: either one of the
JavaScript constructor values the source compares against (Number, String,
Date, Boolean, Buffer) or a dialect type string; unset models an absent
type, rendered as the empty string by the else branch of normalizeType. -/
inductive SqlColumnType where
  | jsNumber
  | jsString
  | jsDate
  | jsBoolean
  | jsBuffer
  | named (s : String)
  | unset
  deriving Repr, DecidableEq

/-- Declared default of a ColumnMetadata: a JavaScript number, boolean,
function (modelled by the string it returns), string, undefined or null. -/
inductive JsDefault where
  | num (n : Int)
  | boolean (b : Bool)
  | func (returned : String)
  | str (s : String)
  | undef
  | nullv
  deriving Repr, DecidableEq

/-- Embedding of the schema-builder TableColumn as introspected from the
database (fields the embedded code reads; default is named defaultValue
because default is reserved in structure literals). -/
structure TableColumn where
  name : String
  type : String
  length : String
  precision : Option Int
  scale : Option Int
  isGenerated : Bool
  generationStrategy : Option String
  defaultValue : Option String
  isPrimary : Bool
  isNullable : Bool
  asExpression : Option String
  generatedType : Option String
  isUnique : Bool
  enum : Option (List String)
  enumName : Option String
  isArray : Bool
  comment : Option String
  primaryKeyConstraintName : Option String
  deriving Repr, DecidableEq

/-- Embedding of the declared ColumnMetadata (fields read by
findChangedColumns).  The entity unique constraints are carried as the
lists of their column database names: normalizeIsUnique compares
uq.columns[0] against the column by object identity, which for one entity
corresponds to its database name. -/
structure ColumnMetadata where
  databaseName : String
  type : SqlColumnType
  length : String
  precision : Option Int
  scale : Option Int
  isGenerated : Bool
  defaultValue : JsDefault
  isPrimary : Bool
  isNullable : Bool
  asExpression : Option String
  generatedType : Option String
  entityUniques : List (List String)
  enum : Option (List String)
  deriving Repr, DecidableEq

/-- Embedding of SqlServerDriver.normalizeType. -/
def normalizeTypeSqlServer : SqlColumnType → String
  | SqlColumnType.jsNumber => "int"
  | SqlColumnType.jsString => "nvarchar"
  | SqlColumnType.jsDate => "datetime"
  | SqlColumnType.jsBoolean => "bit"
  | SqlColumnType.jsBuffer => "binary"
  | SqlColumnType.named s =>
      if s = "integer" then "int"
      else if s = "uuid" then "uniqueidentifier"
      else if s = "simple-array" ∨ s = "simple-json" then "ntext"
      else if s = "simple-enum" then "nvarchar"
      else if s = "dec" then "decimal"
      else if s = "double precision" then "float"
      else if s = "rowversion" then "timestamp"
      else s
  | SqlColumnType.unset => ""

/-- Single-quote as a string, for rendering quoted defaults. -/
def sq : String := String.mk [quoteChar]

/-- Upper-casing a string (JavaScript toUpperCase, basic latin range). -/
def upperStr (s : String) : String := String.mk (s.data.map Char.toUpper)

/-- Embedding of SqlServerDriver.normalizeDefault. -/
def normalizeDefaultSqlServer : JsDefault → Option String
  | JsDefault.num n => some (toString n)
  | JsDefault.boolean b => some (if b then "1" else "0")
  | JsDefault.func returned =>
      if upperStr returned = "CURRENT_TIMESTAMP" then some "getdate()" else some returned
  | JsDefault.str s => some (sq ++ s ++ sq)
  | JsDefault.undef => none
  | JsDefault.nullv => none

/-- Embedding of SqlServerDriver.getColumnLength on a declared column. -/
def getColumnLength (c : ColumnMetadata) : String :=
  if c.length ≠ "" then c.length
  else if c.type = SqlColumnType.named "varchar" ∨ c.type = SqlColumnType.named "nvarchar"
      ∨ c.type = SqlColumnType.jsString then "255"
  else ""

/-- Embedding of SqlServerDriver.normalizeIsUnique. -/
def normalizeIsUnique (c : ColumnMetadata) : Bool :=
  c.entityUniques.any fun uq => uq.length == 1 && uq.head? == some c.databaseName

/-- Modelled from the spec: OrmUtils.isArraysEqual is not among the given
sources; the spec compares enum value sets, so two arrays are equal when
they have the same length and every member of the first occurs in the
second. -/
def isArraysEqual (a b : List String) : Bool :=
  a.length == b.length && a.all fun x => b.contains x

/-- Embedding of SqlServerDriver.compareColumnType: computed
(asExpression) columns are exempt because the engine derives their type
from the expression. -/
def compareColumnType (tc : TableColumn) (cm : ColumnMetadata) : Bool :=
  if jsTruthy cm.asExpression then false
  else tc.type != normalizeTypeSqlServer cm.type

/-- Embedding of SqlServerDriver.compareColumnLength: computed
(asExpression) columns are exempt. -/
def compareColumnLength (tc : TableColumn) (cm : ColumnMetadata) : Bool :=
  if jsTruthy cm.asExpression then false
  else upperStr tc.length != upperStr (getColumnLength cm)

/-- Embedding of the isColumnChanged disjunction inside
SqlServerDriver.findChangedColumns, in source order. -/
def isColumnChangedSqlServer (tc : TableColumn) (cm : ColumnMetadata) : Bool :=
  (tc.name != cm.databaseName)
    || compareColumnType tc cm
    || compareColumnLength tc cm
    || (tc.precision != cm.precision)
    || (tc.scale != cm.scale)
    || (tc.isGenerated != cm.isGenerated)
    || (!tc.isGenerated
        && (lowerDefaultValueIfNecessary (normalizeDefaultSqlServer cm.defaultValue)
              != lowerDefaultValueIfNecessary tc.defaultValue))
    || (tc.isPrimary != cm.isPrimary)
    || (tc.isNullable != cm.isNullable)
    || (tc.asExpression != cm.asExpression)
    || (tc.generatedType != cm.generatedType)
    || (tc.isUnique != normalizeIsUnique cm)
    || (match tc.enum, cm.enum with
        | some e1, some e2 => !isArraysEqual e1 (e2.map fun v => v ++ "")
        | _, _ => false)

/-- Embedding of SqlServerDriver.findChangedColumns: keep the declared
columns that exist in the current set by database name and are changed. -/
def findChangedColumnsSqlServer (tableColumns : List TableColumn)
    (columnMetadatas : List ColumnMetadata) : List ColumnMetadata :=
  columnMetadatas.filter fun cm =>
    match tableColumns.find? (fun c => c.name == cm.databaseName) with
    | none => false
    | some tc => isColumnChangedSqlServer tc cm

/-- Changed-column predicate written from the words of claim C5, which
lists the normalized default among the compared attributes without the
source guard that skips the default comparison for generated current
columns. -/
def claimColumnChangedSqlServer (tc : TableColumn) (cm : ColumnMetadata) : Bool :=
  (tc.name != cm.databaseName)
    || compareColumnType tc cm
    || compareColumnLength tc cm
    || (tc.precision != cm.precision)
    || (tc.scale != cm.scale)
    || (tc.isGenerated != cm.isGenerated)
    || (lowerDefaultValueIfNecessary (normalizeDefaultSqlServer cm.defaultValue)
          != lowerDefaultValueIfNecessary tc.defaultValue)
    || (tc.isPrimary != cm.isPrimary)
    || (tc.isNullable != cm.isNullable)
    || (tc.asExpression != cm.asExpression)
    || (tc.generatedType != cm.generatedType)
    || (tc.isUnique != normalizeIsUnique cm)
    || (match tc.enum, cm.enum with
        | some e1, some e2 => !isArraysEqual e1 (e2.map fun v => v ++ "")
        | _, _ => false)

/-- Template column used by the concrete diffing examples. -/
def blankTableColumn : TableColumn :=
  { name := "a", type := "int", length := "", precision := none, scale := none,
    isGenerated := false, generationStrategy := none, defaultValue := none,
    isPrimary := false, isNullable := false, asExpression := none,
    generatedType := none, isUnique := false, enum := none, enumName := none,
    isArray := false, comment := none, primaryKeyConstraintName := none }

/-- Template declared column used by the concrete diffing examples. -/
def blankColumnMetadata : ColumnMetadata :=
  { databaseName := "a", type := SqlColumnType.named "int", length := "",
    precision := none, scale := none, isGenerated := false,
    defaultValue := JsDefault.undef, isPrimary := false, isNullable := false,
    asExpression := none, generatedType := none, entityUniques := [], enum := none }

/-- Current varchar(255) nullable column from the claim C5 example. -/
def varcharCurrent : TableColumn :=
  { blankTableColumn with name := "title", type := "varchar", length := "255", isNullable := true }

/-- Declared column differing from varcharCurrent only in isNullable. -/
def varcharDeclaredNotNull : ColumnMetadata :=
  { blankColumnMetadata with databaseName := "title", type := SqlColumnType.named "varchar", length := "255", isNullable := false }

/-- Declared column identical to varcharCurrent. -/
def varcharDeclaredSame : ColumnMetadata :=
  { varcharDeclaredNotNull with isNullable := true }

/-- Generated current column with a database default, for the C5
counterexample. -/
def generatedCurrent : TableColumn :=
  { blankTableColumn with isGenerated := true, generationStrategy := some "increment", defaultValue := some "1" }

/-- Generated declared column whose normalized default differs from the
current column default. -/
def generatedDeclared : ColumnMetadata :=
  { blankColumnMetadata with isGenerated := true, defaultValue := JsDefault.num 2 }

/-- C5 counterexample: for a generated current column, the source skips
the default comparison entirely, so a declared column differing only in
its normalized default is NOT reported even though the claim, which lists
the normalized default among the compared attributes unconditionally,
would report it. -/
theorem c5_generated_default_not_compared :
    claimColumnChangedSqlServer generatedCurrent generatedDeclared = true
    ∧ generatedCurrent.name = generatedDeclared.databaseName
    ∧ findChangedColumnsSqlServer [generatedCurrent] [generatedDeclared] = [] := by
  refine ⟨by decide, by decide, by decide⟩

/-- C5 (amended): findChangedColumns returns exactly the declared columns
that exist by database name in the current set and satisfy the source
changed-predicate (which compares name, normalized type, normalized
length, precision, scale, generated flag, normalized default only for
non-generated current columns, primary flag, nullable flag, asExpression,
generatedType, derived uniqueness, and enum value sets only when both
sides carry enum lists, with asExpression columns exempt from the type and
length comparisons); on the concrete examples of the claim it returns the
nullability-changed column and the empty list respectively. -/
theorem c5_find_changed_columns :
    (∀ (tcs : List TableColumn) (metas : List ColumnMetadata) (cm : ColumnMetadata),
        cm ∈ findChangedColumnsSqlServer tcs metas
          ↔ cm ∈ metas
              ∧ ∃ tc, tcs.find? (fun c => c.name == cm.databaseName) = some tc
                  ∧ isColumnChangedSqlServer tc cm = true)
    ∧ findChangedColumnsSqlServer [varcharCurrent] [varcharDeclaredNotNull]
        = [varcharDeclaredNotNull]
    ∧ findChangedColumnsSqlServer [varcharCurrent] [varcharDeclaredSame] = [] := by
  refine ⟨?_, by decide, by decide⟩
  intro tcs metas cm
  rw [findChangedColumnsSqlServer, List.mem_filter]
  constructor
  · rintro ⟨h1, h2⟩
    cases hf : tcs.find? (fun c => c.name == cm.databaseName) with
    | none =>
      rw [hf] at h2
      exact absurd h2 (by simp)
    | some tc =>
      rw [hf] at h2
      exact ⟨h1, tc, rfl, h2⟩
  · rintro ⟨h1, tc, hf, hc⟩
    exact ⟨h1, by rw [hf]; exact hc⟩

/-! ## Postgres table-path parsing and the bulk loaders
(PostgresQueryRunner.loadTables, source lines 4506-4543, and
PostgresQueryRunner.loadViews, source lines 4392-4399 and onward). -/

/-- Modelled from the spec: PostgresDriver.parseTableName is not among the
given sources; per the spec, table-path building accounts for an optional
schema qualifier, so a two-part dotted path is split into schema and table
name and anything else is an unqualified name with the driver schema
option as fallback. -/
def pgParseTableName (driverSchema : Option String) (target : String) :
    Option String × String :=
  match splitDotString target with
  | [s, t] => (some s, t)
  | _ => (driverSchema, target)

/-- JavaScript value || fallback for an optional string against a string. -/
def jsOrString (o : Option String) (fallback : String) : String :=
  match o with
  | some s => if s = "" then fallback else s
  | none => fallback

/-- Catalog row describing one table of the live database. -/
structure DbTable where
  schema : String
  name : String
  deriving Repr, DecidableEq

/-- Metadata-table row describing one view (type VIEW or
MATERIALIZED_VIEW). -/
structure DbView where
  schema : String
  name : String
  metadataType : String
  deriving Repr, DecidableEq

/-- The live-database facts the bulk loaders consult: current schema,
driver schema option, presence of the typeorm metadata table, the catalog
tables, and the metadata rows for views. -/
structure PgDatabase where
  currentSchema : String
  driverSchema : Option String
  hasMetadataTable : Bool
  tables : List DbTable
  metadataViewRows : List DbView
  deriving Repr, DecidableEq

/-- Embedding of the table-selection logic of
PostgresQueryRunner.loadTables: an explicitly empty name list returns no
tables at once, an omitted list selects every table, and otherwise each
name is parsed and matched with the current schema as fallback.  The
assembly of columns and constraints onto the selected tables, performed by
batch catalog queries, is outside this model. -/
def loadTablesSelect (db : PgDatabase) (tableNames : Option (List String)) :
    List DbTable :=
  match tableNames with
  | some [] => []
  | none => db.tables
  | some names =>
      db.tables.filter fun t =>
        names.any fun nm =>
          let parsed := pgParseTableName db.driverSchema nm
          t.schema == jsOrString parsed.1 db.currentSchema && t.name == parsed.2

/-- Embedding of the view-selection logic of
PostgresQueryRunner.loadViews: without the metadata table there are no
views; an omitted name list is replaced by the empty list, and an empty
list yields the always-true condition selecting every view row of type
VIEW or MATERIALIZED_VIEW. -/
def loadViewsSelect (db : PgDatabase) (viewNames : Option (List String)) :
    List DbView :=
  if !db.hasMetadataTable then []
  else
    let names := viewNames.getD []
    db.metadataViewRows.filter fun v =>
      (v.metadataType == "VIEW" || v.metadataType == "MATERIALIZED_VIEW")
        && (names.isEmpty
            || names.any fun nm =>
                let parsed := pgParseTableName db.driverSchema nm
                v.schema == jsOrString parsed.1 (jsOrString db.driverSchema db.currentSchema)
                  && v.name == parsed.2)

/-- Concrete database with one table and one view for the C6 theorems. -/
def dbEx : PgDatabase :=
  { currentSchema := "public", driverSchema := none, hasMetadataTable := true,
    tables := [{ schema := "public", name := "post" }],
    metadataViewRows := [{ schema := "public", name := "v1", metadataType := "VIEW" }] }

/-- C6 counterexample: loadTables treats an explicitly empty name list as
selecting nothing, not as selecting all tables, even though the database
has a table (loadTables with the list omitted does return it). -/
theorem c6_load_tables_empty_list_selects_nothing :
    loadTablesSelect dbEx (some []) = []
    ∧ loadTablesSelect dbEx none = [{ schema := "public", name := "post" }]
    ∧ dbEx.tables ≠ [] := by
  refine ⟨rfl, rfl, by decide⟩

/-- C6 (amended): loadViews treats zero given names, whether the list is
empty or omitted, as meaning all views of type VIEW or MATERIALIZED_VIEW;
loadTables treats an omitted list as all tables but returns the empty
result for an explicitly empty list. -/
theorem c6_bulk_loader_empty_name_semantics (db : PgDatabase) :
    loadTablesSelect db none = db.tables
    ∧ loadTablesSelect db (some []) = []
    ∧ loadViewsSelect db none = loadViewsSelect db (some [])
    ∧ (db.hasMetadataTable = true →
        loadViewsSelect db (some [])
          = db.metadataViewRows.filter fun v =>
              v.metadataType == "VIEW" || v.metadataType == "MATERIALIZED_VIEW") := by
  refine ⟨rfl, rfl, rfl, ?_⟩
  intro h
  simp only [loadViewsSelect, h, Bool.not_true, Bool.false_eq_true, if_false,
    Option.getD_some, List.isEmpty_nil, Bool.true_or, Bool.and_true]

/-- Witness for c6_bulk_loader_empty_name_semantics at the concrete
database dbEx. -/
theorem c6_bulk_loader_empty_name_semantics_witness :
    loadViewsSelect dbEx (some [])
      = dbEx.metadataViewRows.filter fun v =>
          v.metadataType == "VIEW" || v.metadataType == "MATERIALIZED_VIEW" :=
  (c6_bulk_loader_empty_name_semantics dbEx).2.2.2 rfl

/-! ## Table model and the rename cascade
(PostgresQueryRunner.renameTable, source lines 1928-2177). -/

/-- Embedding of the schema-builder TableUnique. -/
structure TableUnique where
  name : String
  columnNames : List String
  deriving Repr, DecidableEq

/-- Embedding of the schema-builder TableIndex (the fields the embedded
code reads; the where predicate is named whereCondition). -/
structure TableIndex where
  name : String
  columnNames : List String
  isUnique : Bool
  whereCondition : Option String
  deriving Repr, DecidableEq

/-- Embedding of the schema-builder TableCheck: columnNames may be absent. -/
structure TableCheck where
  name : String
  columnNames : Option (List String)
  deriving Repr, DecidableEq

/-- Embedding of the schema-builder TableForeignKey; the referenced table
path stands for what BaseQueryRunner.getTablePath (not among the given
sources) derives from the referenced table name and schema. -/
structure TableForeignKey where
  name : String
  columnNames : List String
  referencedTablePath : String
  referencedColumnNames : List String
  deriving Repr, DecidableEq

/-- Embedding of the schema-builder Table. -/
structure Table where
  name : String
  columns : List TableColumn
  uniques : List TableUnique
  indices : List TableIndex
  checks : List TableCheck
  foreignKeys : List TableForeignKey
  deriving Repr, DecidableEq

/-- Modelled from the spec: BaseQueryRunner.getTablePath of a foreign key
is the schema-qualified path of its referenced table. -/
def getTablePath (fk : TableForeignKey) : String := fk.referencedTablePath

/-- The naming-strategy collaborator: pure functions from the table path
and column-name lists to deterministic constraint and index names (the
spec's Naming Strategy component, consumed by the embedded query-runner
code through connection.namingStrategy). -/
structure NamingStrategy where
  primaryKeyName : String → List String → String
  uniqueConstraintName : String → List String → String
  indexName : String → List String → Option String → String
  foreignKeyName : String → List String → String → List String → String

/-- One iteration of the rename-unique-constraints forEach of renameTable:
skip when the unique carries a user-defined name (it differs from the
naming-strategy name computed for the old table), otherwise emit the
rename pair and store the new default name. -/
def renameUniqueStep (ns : NamingStrategy) (oldTable newTable : Table)
    (u : TableUnique) : Option (String × String) × TableUnique :=
  let oldUniqueName := ns.uniqueConstraintName oldTable.name u.columnNames
  if u.name ≠ oldUniqueName then (none, u)
  else
    let newUniqueName := ns.uniqueConstraintName newTable.name u.columnNames
    (some (u.name, newUniqueName), { u with name := newUniqueName })

/-- One iteration of the rename-index-constraints forEach of renameTable. -/
def renameIndexStep (ns : NamingStrategy) (oldTable newTable : Table)
    (idx : TableIndex) : Option (String × String) × TableIndex :=
  let oldIndexName := ns.indexName oldTable.name idx.columnNames idx.whereCondition
  if idx.name ≠ oldIndexName then (none, idx)
  else
    let newIndexName := ns.indexName newTable.name idx.columnNames idx.whereCondition
    (some (idx.name, newIndexName), { idx with name := newIndexName })

/-- One iteration of the rename-foreign-key-constraints forEach of
renameTable. -/
def renameForeignKeyStep (ns : NamingStrategy) (oldTable newTable : Table)
    (fk : TableForeignKey) : Option (String × String) × TableForeignKey :=
  let oldForeignKeyName :=
    ns.foreignKeyName oldTable.name fk.columnNames (getTablePath fk) fk.referencedColumnNames
  if fk.name ≠ oldForeignKeyName then (none, fk)
  else
    let newForeignKeyName :=
      ns.foreignKeyName newTable.name fk.columnNames (getTablePath fk) fk.referencedColumnNames
    (some (fk.name, newForeignKeyName), { fk with name := newForeignKeyName })

/-- Result of the modelled renameTable: the updated clone that replaces
the cache entry and the (old name, new name) pairs for which RENAME
CONSTRAINT / RENAME index statements are emitted, per constraint kind. -/
structure RenameTableResult where
  newTable : Table
  uniqueRenames : List (String × String)
  indexRenames : List (String × String)
  foreignKeyRenames : List (String × String)
  deriving Repr, DecidableEq

/-- Embedding of PostgresQueryRunner.renameTable restricted to its effect
on the table object and the constraint renames it emits: the clone gets
the schema-qualified new name, then the unique, index and foreign-key
constraint lists are walked in order.  The table rename itself, the
primary-key rename (driven by primaryKeyConstraintName rather than by the
container), the sequence renames and the enum-type renames only emit SQL
text and touch no constraint container, so they carry no content for the
renaming claim. -/
def renameTablePath (driverSchema : Option String)
    (oldTableName newTableName : String) : String :=
  let parsed := pgParseTableName driverSchema oldTableName
  if jsTruthy parsed.1 then parsed.1.getD "" ++ "." ++ newTableName else newTableName

def renameTableModel (ns : NamingStrategy) (driverSchema : Option String)
    (oldTable : Table) (newTableName : String) : RenameTableResult :=
  let newTable0 : Table :=
    { oldTable with name := renameTablePath driverSchema oldTable.name newTableName }
  let uniqueSteps := newTable0.uniques.map (renameUniqueStep ns oldTable newTable0)
  let indexSteps := newTable0.indices.map (renameIndexStep ns oldTable newTable0)
  let fkSteps := newTable0.foreignKeys.map (renameForeignKeyStep ns oldTable newTable0)
  { newTable :=
      { newTable0 with
          uniques := uniqueSteps.map Prod.snd,
          indices := indexSteps.map Prod.snd,
          foreignKeys := fkSteps.map Prod.snd },
    uniqueRenames := uniqueSteps.filterMap Prod.fst,
    indexRenames := indexSteps.filterMap Prod.fst,
    foreignKeyRenames := fkSteps.filterMap Prod.fst }

theorem map_renameUniqueStep_snd (ns : NamingStrategy) (oldTable newTable : Table)
    (l : List TableUnique) :
    (l.map (renameUniqueStep ns oldTable newTable)).map Prod.snd
      = l.map fun u =>
          if u.name = ns.uniqueConstraintName oldTable.name u.columnNames then
            { u with name := ns.uniqueConstraintName newTable.name u.columnNames }
          else u := by
  induction l with
  | nil => rfl
  | cons u us ih =>
    by_cases h : u.name = ns.uniqueConstraintName oldTable.name u.columnNames
    · simp [renameUniqueStep, h, ih]
    · simp [renameUniqueStep, h, ih]

theorem map_renameUniqueStep_fst (ns : NamingStrategy) (oldTable newTable : Table)
    (l : List TableUnique) :
    (l.map (renameUniqueStep ns oldTable newTable)).filterMap Prod.fst
      = (l.filter fun u =>
            decide (u.name = ns.uniqueConstraintName oldTable.name u.columnNames)).map
          fun u => (u.name, ns.uniqueConstraintName newTable.name u.columnNames) := by
  induction l with
  | nil => rfl
  | cons u us ih =>
    by_cases h : u.name = ns.uniqueConstraintName oldTable.name u.columnNames
    · simp [renameUniqueStep, h, ih]
    · simp [renameUniqueStep, h, ih]

theorem map_renameIndexStep_snd (ns : NamingStrategy) (oldTable newTable : Table)
    (l : List TableIndex) :
    (l.map (renameIndexStep ns oldTable newTable)).map Prod.snd
      = l.map fun idx =>
          if idx.name = ns.indexName oldTable.name idx.columnNames idx.whereCondition then
            { idx with
                name := ns.indexName newTable.name idx.columnNames idx.whereCondition }
          else idx := by
  induction l with
  | nil => rfl
  | cons idx is ih =>
    by_cases h : idx.name = ns.indexName oldTable.name idx.columnNames idx.whereCondition
    · simp [renameIndexStep, h, ih]
    · simp [renameIndexStep, h, ih]

theorem map_renameIndexStep_fst (ns : NamingStrategy) (oldTable newTable : Table)
    (l : List TableIndex) :
    (l.map (renameIndexStep ns oldTable newTable)).filterMap Prod.fst
      = (l.filter fun idx =>
            decide (idx.name
              = ns.indexName oldTable.name idx.columnNames idx.whereCondition)).map
          fun idx =>
            (idx.name, ns.indexName newTable.name idx.columnNames idx.whereCondition) := by
  induction l with
  | nil => rfl
  | cons idx is ih =>
    by_cases h : idx.name = ns.indexName oldTable.name idx.columnNames idx.whereCondition
    · simp [renameIndexStep, h, ih]
    · simp [renameIndexStep, h, ih]

theorem map_renameForeignKeyStep_snd (ns : NamingStrategy) (oldTable newTable : Table)
    (l : List TableForeignKey) :
    (l.map (renameForeignKeyStep ns oldTable newTable)).map Prod.snd
      = l.map fun fk =>
          if fk.name = ns.foreignKeyName oldTable.name fk.columnNames (getTablePath fk)
              fk.referencedColumnNames then
            { fk with
                name := ns.foreignKeyName newTable.name fk.columnNames (getTablePath fk)
                  fk.referencedColumnNames }
          else fk := by
  induction l with
  | nil => rfl
  | cons fk fs ih =>
    by_cases h : fk.name
        = ns.foreignKeyName oldTable.name fk.columnNames (getTablePath fk)
            fk.referencedColumnNames
    · simp [renameForeignKeyStep, h, ih]
    · simp [renameForeignKeyStep, h, ih]

theorem map_renameForeignKeyStep_fst (ns : NamingStrategy) (oldTable newTable : Table)
    (l : List TableForeignKey) :
    (l.map (renameForeignKeyStep ns oldTable newTable)).filterMap Prod.fst
      = (l.filter fun fk =>
            decide (fk.name
              = ns.foreignKeyName oldTable.name fk.columnNames (getTablePath fk)
                  fk.referencedColumnNames)).map
          fun fk =>
            (fk.name, ns.foreignKeyName newTable.name fk.columnNames (getTablePath fk)
              fk.referencedColumnNames) := by
  induction l with
  | nil => rfl
  | cons fk fs ih =>
    by_cases h : fk.name
        = ns.foreignKeyName oldTable.name fk.columnNames (getTablePath fk)
            fk.referencedColumnNames
    · simp [renameForeignKeyStep, h, ih]
    · simp [renameForeignKeyStep, h, ih]

/-- C1: under renameTable, a dependent unique, index or foreign-key
constraint ends with the post-rename naming-strategy name exactly when its
current name equals the name the naming strategy generates for the
pre-rename table and its column names, and keeps its user-supplied name
otherwise; the emitted rename pairs are exactly those for the
default-named constraints. -/
theorem c1_rename_cascade_default_names (ns : NamingStrategy)
    (driverSchema : Option String) (oldTable : Table) (newTableName : String) :
    ((renameTableModel ns driverSchema oldTable newTableName).newTable.name
        = renameTablePath driverSchema oldTable.name newTableName)
    ∧ ((renameTableModel ns driverSchema oldTable newTableName).newTable.uniques
        = oldTable.uniques.map fun u =>
            if u.name = ns.uniqueConstraintName oldTable.name u.columnNames then
              { u with name := ns.uniqueConstraintName (renameTablePath driverSchema oldTable.name newTableName) u.columnNames }
            else u)
    ∧ ((renameTableModel ns driverSchema oldTable newTableName).uniqueRenames
        = (oldTable.uniques.filter fun u =>
              decide (u.name = ns.uniqueConstraintName oldTable.name u.columnNames)).map
            fun u =>
              (u.name, ns.uniqueConstraintName
                (renameTablePath driverSchema oldTable.name newTableName) u.columnNames))
    ∧ ((renameTableModel ns driverSchema oldTable newTableName).newTable.indices
        = oldTable.indices.map fun idx =>
            if idx.name = ns.indexName oldTable.name idx.columnNames idx.whereCondition then
              { idx with name := ns.indexName (renameTablePath driverSchema oldTable.name newTableName) idx.columnNames idx.whereCondition }
            else idx)
    ∧ ((renameTableModel ns driverSchema oldTable newTableName).indexRenames
        = (oldTable.indices.filter fun idx =>
              decide (idx.name
                = ns.indexName oldTable.name idx.columnNames idx.whereCondition)).map
            fun idx =>
              (idx.name, ns.indexName
                (renameTablePath driverSchema oldTable.name newTableName)
                idx.columnNames idx.whereCondition))
    ∧ ((renameTableModel ns driverSchema oldTable newTableName).newTable.foreignKeys
        = oldTable.foreignKeys.map fun fk =>
            if fk.name = ns.foreignKeyName oldTable.name fk.columnNames (getTablePath fk)
                fk.referencedColumnNames then
              { fk with name := ns.foreignKeyName (renameTablePath driverSchema oldTable.name newTableName) fk.columnNames (getTablePath fk) fk.referencedColumnNames }
            else fk)
    ∧ ((renameTableModel ns driverSchema oldTable newTableName).foreignKeyRenames
        = (oldTable.foreignKeys.filter fun fk =>
              decide (fk.name
                = ns.foreignKeyName oldTable.name fk.columnNames (getTablePath fk)
                    fk.referencedColumnNames)).map
            fun fk =>
              (fk.name, ns.foreignKeyName
                (renameTablePath driverSchema oldTable.name newTableName)
                fk.columnNames (getTablePath fk) fk.referencedColumnNames)) := by
  refine ⟨rfl, ?_, ?_, ?_, ?_, ?_, ?_⟩
  · exact map_renameUniqueStep_snd ns oldTable _ oldTable.uniques
  · exact map_renameUniqueStep_fst ns oldTable _ oldTable.uniques
  · exact map_renameIndexStep_snd ns oldTable _ oldTable.indices
  · exact map_renameIndexStep_fst ns oldTable _ oldTable.indices
  · exact map_renameForeignKeyStep_snd ns oldTable _ oldTable.foreignKeys
  · exact map_renameForeignKeyStep_fst ns oldTable _ oldTable.foreignKeys

/-! ## Postgres DDL text for enum changes
(PostgresQueryRunner.changeColumn enum branch, source lines 2745-2889,
with escapePath 5884-5892, buildEnumName 5820-5839, createEnumTypeSql
5511-5521, dropEnumTypeSql 5526-5533). -/

/-- Driver facts escapePath and buildEnumName consult. -/
structure PgDriverInfo where
  schema : Option String
  searchSchema : Option String
  deriving Repr, DecidableEq

/-- Double-quoting an identifier. -/
def dq (s : String) : String := "\"" ++ s ++ "\""

/-- Lower-casing a string (JavaScript toLowerCase, basic latin range). -/
def lowerStr (s : String) : String := String.mk (s.data.map Char.toLower)

/-- Embedding of PostgresQueryRunner.escapePath on a table path: qualify
with the schema unless it is the driver search schema. -/
def escapePathPg (drv : PgDriverInfo) (target : String) : String :=
  let parsed := pgParseTableName drv.schema target
  if jsTruthy parsed.1 ∧ parsed.1 ≠ drv.searchSchema then
    dq (parsed.1.getD "") ++ "." ++ dq parsed.2
  else
    dq parsed.2

/-- Embedding of PostgresQueryRunner.buildEnumName. -/
def buildEnumNamePg (drv : PgDriverInfo) (table : Table) (column : TableColumn)
    (withSchema disableEscape toOld : Bool) : String :=
  let parsed := pgParseTableName drv.schema table.name
  let enumName :=
    if jsTruthy column.enumName then column.enumName.getD ""
    else parsed.2 ++ "_" ++ lowerStr column.name ++ "_enum"
  let enumName :=
    if jsTruthy parsed.1 ∧ withSchema then parsed.1.getD "" ++ "." ++ enumName
    else enumName
  let enumName := if toOld then enumName ++ "_old" else enumName
  joinDotStrings ((splitDotString enumName).map fun i => if disableEscape then i else dq i)

/-- Embedding of PostgresQueryRunner.createEnumTypeSql. -/
def createEnumTypeSqlPg (drv : PgDriverInfo) (table : Table) (column : TableColumn)
    (enumName : Option String) : String :=
  let en :=
    if jsTruthy enumName then enumName.getD ""
    else buildEnumNamePg drv table column true false false
  let enumValues :=
    String.intercalate ", "
      ((column.enum.getD []).map fun value => sq ++ value.replace sq (sq ++ sq) ++ sq)
  "CREATE TYPE " ++ en ++ " AS ENUM(" ++ enumValues ++ ")"

/-- Embedding of PostgresQueryRunner.dropEnumTypeSql. -/
def dropEnumTypeSqlPg (drv : PgDriverInfo) (table : Table) (column : TableColumn)
    (enumName : Option String) : String :=
  let en :=
    if jsTruthy enumName then enumName.getD ""
    else buildEnumNamePg drv table column true false false
  "DROP TYPE " ++ en

/-- Embedding of the guard of the enum-rebuild branch of changeColumn:
both columns are enum-like and the enum arrays or enum names differ. -/
def changeColumnEnumGuard (oldColumn newColumn : TableColumn) : Bool :=
  (newColumn.type == "enum" || newColumn.type == "simple-enum")
    && (oldColumn.type == "enum" || oldColumn.type == "simple-enum")
    && (!isArraysEqual (newColumn.enum.getD []) (oldColumn.enum.getD [])
        || newColumn.enumName != oldColumn.enumName)

/-- Embedding of the enum-rebuild branch body of
PostgresQueryRunner.changeColumn: each upQueries.push is paired with the
downQueries.push at the same position, in source order. -/
def changeColumnEnumQueries (drv : PgDriverInfo) (table : Table)
    (oldColumn newColumn : TableColumn) : List String × List String :=
  let arraySuffix := if newColumn.isArray then "[]" else ""
  let newEnumName := buildEnumNamePg drv table newColumn true false false
  let oldEnumName := buildEnumNamePg drv table oldColumn true false false
  let oldEnumNameWithoutSchema := buildEnumNamePg drv table oldColumn false false false
  let oldEnumNameWithSchemaOld := buildEnumNamePg drv table oldColumn true false true
  let oldEnumNameWithoutSchemaOld := buildEnumNamePg drv table oldColumn false false true
  let upQueries :=
    ["ALTER TYPE " ++ oldEnumName ++ " RENAME TO " ++ oldEnumNameWithoutSchemaOld]
  let downQueries :=
    ["ALTER TYPE " ++ oldEnumNameWithSchemaOld ++ " RENAME TO " ++ oldEnumNameWithoutSchema]
  let upQueries := upQueries ++ [createEnumTypeSqlPg drv table newColumn (some newEnumName)]
  let downQueries := downQueries ++ [dropEnumTypeSqlPg drv table newColumn (some newEnumName)]
  let upQueries := upQueries ++
    (if oldColumn.defaultValue.isSome then
      ["ALTER TABLE " ++ escapePathPg drv table.name ++ " ALTER COLUMN "
        ++ dq oldColumn.name ++ " DROP DEFAULT"]
    else [])
  let downQueries := downQueries ++
    (if oldColumn.defaultValue.isSome then
      ["ALTER TABLE " ++ escapePathPg drv table.name ++ " ALTER COLUMN "
        ++ dq oldColumn.name ++ " SET DEFAULT " ++ oldColumn.defaultValue.getD ""]
    else [])
  let upType := newEnumName ++ arraySuffix ++ " USING " ++ dq newColumn.name
    ++ "::" ++ dq "text" ++ "::" ++ newEnumName ++ arraySuffix
  let downType := oldEnumNameWithSchemaOld ++ arraySuffix ++ " USING " ++ dq newColumn.name
    ++ "::" ++ dq "text" ++ "::" ++ oldEnumNameWithSchemaOld ++ arraySuffix
  let upQueries := upQueries ++
    ["ALTER TABLE " ++ escapePathPg drv table.name ++ " ALTER COLUMN "
      ++ dq newColumn.name ++ " TYPE " ++ upType]
  let downQueries := downQueries ++
    ["ALTER TABLE " ++ escapePathPg drv table.name ++ " ALTER COLUMN "
      ++ dq newColumn.name ++ " TYPE " ++ downType]
  let upQueries := upQueries ++
    (if newColumn.defaultValue.isSome then
      ["ALTER TABLE " ++ escapePathPg drv table.name ++ " ALTER COLUMN "
        ++ dq newColumn.name ++ " SET DEFAULT " ++ newColumn.defaultValue.getD ""]
    else [])
  let downQueries := downQueries ++
    (if newColumn.defaultValue.isSome then
      ["ALTER TABLE " ++ escapePathPg drv table.name ++ " ALTER COLUMN "
        ++ dq newColumn.name ++ " DROP DEFAULT"]
    else [])
  let upQueries := upQueries ++ [dropEnumTypeSqlPg drv table oldColumn (some oldEnumNameWithSchemaOld)]
  let downQueries := downQueries ++ [createEnumTypeSqlPg drv table oldColumn (some oldEnumNameWithSchemaOld)]
  (upQueries, downQueries)

/-- Up-statement sequence written from the words of claim C2: rename the
old enum type to the _old-suffixed name, create the new enum type, drop
the column default if one exists, alter the column type with a text cast,
set the default if the new column has one, drop the renamed old type. -/
def enumChangeUpSpec (drv : PgDriverInfo) (table : Table)
    (oldColumn newColumn : TableColumn) : List String :=
  let suffix := if newColumn.isArray then "[]" else ""
  let newEnum := buildEnumNamePg drv table newColumn true false false
  ["ALTER TYPE " ++ buildEnumNamePg drv table oldColumn true false false
      ++ " RENAME TO " ++ buildEnumNamePg drv table oldColumn false false true,
   createEnumTypeSqlPg drv table newColumn (some newEnum)]
  ++ (if oldColumn.defaultValue.isSome then
        ["ALTER TABLE " ++ escapePathPg drv table.name ++ " ALTER COLUMN "
          ++ dq oldColumn.name ++ " DROP DEFAULT"]
      else [])
  ++ ["ALTER TABLE " ++ escapePathPg drv table.name ++ " ALTER COLUMN "
        ++ dq newColumn.name ++ " TYPE "
        ++ (newEnum ++ suffix ++ " USING " ++ dq newColumn.name ++ "::" ++ dq "text"
            ++ "::" ++ newEnum ++ suffix)]
  ++ (if newColumn.defaultValue.isSome then
        ["ALTER TABLE " ++ escapePathPg drv table.name ++ " ALTER COLUMN "
          ++ dq newColumn.name ++ " SET DEFAULT " ++ newColumn.defaultValue.getD ""]
      else [])
  ++ [dropEnumTypeSqlPg drv table oldColumn
        (some (buildEnumNamePg drv table oldColumn true false true))]

/-- Down-statement sequence of the amended claim C2: emitted in the same
order as the up statements, each the inverse of its positional
counterpart (rename the _old type back, drop the new type, restore the
old default, cast back to the _old type, drop the new default, recreate
the old type under its _old name). -/
def enumChangeDownSpec (drv : PgDriverInfo) (table : Table)
    (oldColumn newColumn : TableColumn) : List String :=
  let suffix := if newColumn.isArray then "[]" else ""
  let oldEnumOld := buildEnumNamePg drv table oldColumn true false true
  ["ALTER TYPE " ++ oldEnumOld ++ " RENAME TO "
      ++ buildEnumNamePg drv table oldColumn false false false,
   dropEnumTypeSqlPg drv table newColumn
      (some (buildEnumNamePg drv table newColumn true false false))]
  ++ (if oldColumn.defaultValue.isSome then
        ["ALTER TABLE " ++ escapePathPg drv table.name ++ " ALTER COLUMN "
          ++ dq oldColumn.name ++ " SET DEFAULT " ++ oldColumn.defaultValue.getD ""]
      else [])
  ++ ["ALTER TABLE " ++ escapePathPg drv table.name ++ " ALTER COLUMN "
        ++ dq newColumn.name ++ " TYPE "
        ++ (oldEnumOld ++ suffix ++ " USING " ++ dq newColumn.name ++ "::" ++ dq "text"
            ++ "::" ++ oldEnumOld ++ suffix)]
  ++ (if newColumn.defaultValue.isSome then
        ["ALTER TABLE " ++ escapePathPg drv table.name ++ " ALTER COLUMN "
          ++ dq newColumn.name ++ " DROP DEFAULT"]
      else [])
  ++ [createEnumTypeSqlPg drv table oldColumn (some oldEnumOld)]

/-- Concrete driver, table and enum columns for the C2 theorems: the
status column changes its enum values from A,B to A,B,C with defaults
present on both sides. -/
def drvEx : PgDriverInfo := { schema := none, searchSchema := none }

/-- Old status column with enum values A,B and a default. -/
def oldStatusCol : TableColumn :=
  { blankTableColumn with name := "status", type := "enum", enum := some ["A", "B"], defaultValue := some (sq ++ "A" ++ sq) }

/-- New status column with enum values A,B,C and a default. -/
def newStatusCol : TableColumn :=
  { blankTableColumn with name := "status", type := "enum", enum := some ["A", "B", "C"], defaultValue := some (sq ++ "B" ++ sq) }

/-- Table holding the status column. -/
def statusTable : Table :=
  { name := "t", columns := [oldStatusCol], uniques := [], indices := [],
    checks := [], foreignKeys := [] }

/-- C2 counterexample: the emitted down statements are NOT the reverse of
the up sequence with old and new swapped; they are emitted pairwise in the
same order as the up statements. -/
theorem c2_down_not_reverse_of_swapped_up :
    changeColumnEnumGuard oldStatusCol newStatusCol = true
    ∧ ¬ ((changeColumnEnumQueries drvEx statusTable oldStatusCol newStatusCol).2
          = ((changeColumnEnumQueries drvEx statusTable newStatusCol oldStatusCol).1).reverse) := by
  refine ⟨by decide, by decide⟩

/-- C2 (amended): whenever the enum-rebuild branch applies (old and new
columns of enum type whose enum arrays or enum names differ), the up
statements are exactly rename-old, create-new, conditional drop-default,
cast via text, conditional set-default, drop-old, and the down statements
are emitted in the same order with each statement the inverse of its
positional up counterpart. -/
theorem c2_enum_change_protocol (drv : PgDriverInfo) (table : Table)
    (oldColumn newColumn : TableColumn)
    (hguard : changeColumnEnumGuard oldColumn newColumn = true) :
    (changeColumnEnumQueries drv table oldColumn newColumn).1
        = enumChangeUpSpec drv table oldColumn newColumn
    ∧ (changeColumnEnumQueries drv table oldColumn newColumn).2
        = enumChangeDownSpec drv table oldColumn newColumn := by
  cases hod : oldColumn.defaultValue <;> cases hnd : newColumn.defaultValue <;>
    simp [changeColumnEnumQueries, enumChangeUpSpec, enumChangeDownSpec, hod, hnd]

/-- Witness for c2_enum_change_protocol at the concrete status column
change. -/
theorem c2_enum_change_protocol_witness :
    (changeColumnEnumQueries drvEx statusTable oldStatusCol newStatusCol).1
        = enumChangeUpSpec drvEx statusTable oldStatusCol newStatusCol
    ∧ (changeColumnEnumQueries drvEx statusTable oldStatusCol newStatusCol).2
        = enumChangeDownSpec drvEx statusTable oldStatusCol newStatusCol :=
  c2_enum_change_protocol drvEx statusTable oldStatusCol newStatusCol (by decide)

/-! ## Table cache and the builder mutation methods
(PostgresQueryRunner.addColumn 2182-2363, dropColumn 3525-3720,
changeColumn 2410-3508).  The cache itself (BaseQueryRunner.loadedTables
with getCachedTable / replaceCachedTable / executeQueries) is not among
the given sources and is modelled from the spec.  JavaScript aliasing is
made explicit: the cached Table of a name-based call is the object the
methods resolve, so an in-place mutation of one of its columns is a cache
update, while clones are independent values.  Statement execution is
modelled by a ddlOk flag (executeQueries succeeds or throws); query text
is modelled separately and not tracked here. -/

/-- Modelled from the spec: the process-held cache of previously loaded
Table objects (BaseQueryRunner.loadedTables). -/
structure SchemaCache where
  loadedTables : List Table
  deriving Repr, DecidableEq

/-- Errors surfaced by the modelled builder methods. -/
inductive RunnerError where
  | tableNotFound
  | columnNotFound
  | ddlFailed
  deriving Repr, DecidableEq

/-- Modelled from the spec: BaseQueryRunner.getCachedTable reads through
the loaded-tables cache by table name. -/
def getCachedTable (cache : SchemaCache) (name : String) : Option Table :=
  cache.loadedTables.find? fun t => t.name == name

/-- Modelled from the spec: BaseQueryRunner.replaceCachedTable atomically
replaces the cached entry of the mutated table with the changed clone. -/
def replaceCachedTable (cache : SchemaCache) (oldTable newTable : Table) : SchemaCache :=
  { loadedTables := cache.loadedTables.map fun t => if t.name == oldTable.name then newTable else t }

/-- Modelled from the spec: Table.addColumn appends the column. -/
def tableAddColumn (t : Table) (c : TableColumn) : Table :=
  { t with columns := t.columns ++ [c] }

/-- Modelled from the spec: Table.removeColumn removes the column with
the given name. -/
def tableRemoveColumn (t : Table) (c : TableColumn) : Table :=
  { t with columns := t.columns.eraseP fun cc => cc.name == c.name }

/-- Embedding of the state effects of PostgresQueryRunner.addColumn on a
resolved table object: mutations (the unique-constraint push) go to the
clone, queries are executed, and only on success the clone with the added
column replaces the cached entry. -/
def addColumnCore (ns : NamingStrategy) (ddlOk : Bool) (cache : SchemaCache)
    (table : Table) (column : TableColumn) : SchemaCache × Except RunnerError Unit :=
  let clonedTable :=
    if column.isUnique then
      { table with uniques := table.uniques ++ [{ name := ns.uniqueConstraintName table.name [column.name], columnNames := [column.name] }] }
    else table
  if ddlOk then
    (replaceCachedTable cache table (tableAddColumn clonedTable column), Except.ok ())
  else
    (cache, Except.error RunnerError.ddlFailed)

/-- Name-based addColumn: resolve the table through the cache first. -/
def addColumnModel (ns : NamingStrategy) (ddlOk : Bool) (cache : SchemaCache)
    (tableName : String) (column : TableColumn) : SchemaCache × Except RunnerError Unit :=
  match getCachedTable cache tableName with
  | none => (cache, Except.error RunnerError.tableNotFound)
  | some table => addColumnCore ns ddlOk cache table column

/-- Embedding of the state effects of PostgresQueryRunner.dropColumn on a
resolved table object: the primary flag reset and the splices of the
single-column index, check and unique constraints all go to the clone;
only on success the clone without the column replaces the cached entry. -/
def dropColumnCore (ns : NamingStrategy) (ddlOk : Bool) (cache : SchemaCache)
    (table : Table) (columnName : String) : SchemaCache × Except RunnerError Unit :=
  match table.columns.find? (fun c => c.name == columnName) with
  | none => (cache, Except.error RunnerError.columnNotFound)
  | some column =>
    let clonedTable := table
    let clonedTable :=
      if column.isPrimary then
        { clonedTable with columns := clonedTable.columns.map fun cc => if cc.name == column.name then { cc with isPrimary := false } else cc }
      else clonedTable
    let clonedTable :=
      { clonedTable with indices := clonedTable.indices.eraseP fun idx => idx.columnNames == [column.name] }
    let clonedTable :=
      { clonedTable with checks := clonedTable.checks.eraseP fun ch => ch.columnNames == some [column.name] }
    let clonedTable :=
      { clonedTable with uniques := clonedTable.uniques.eraseP fun u => u.columnNames == [column.name] }
    if ddlOk then
      (replaceCachedTable cache table (tableRemoveColumn clonedTable column), Except.ok ())
    else
      (cache, Except.error RunnerError.ddlFailed)

/-- Name-based dropColumn: resolve the table through the cache first. -/
def dropColumnModel (ns : NamingStrategy) (ddlOk : Bool) (cache : SchemaCache)
    (tableName : String) (columnName : String) : SchemaCache × Except RunnerError Unit :=
  match getCachedTable cache tableName with
  | none => (cache, Except.error RunnerError.tableNotFound)
  | some table => dropColumnCore ns ddlOk cache table columnName

/-- Embedding of the state effects of PostgresQueryRunner.changeColumn
resolved by table and column name.  The recreate branch (type, length,
array or stored-generation change) calls dropColumn then addColumn, then
replaces the cache entry with a fresh clone of the stale table object.
The in-place branch renames constraints and the column on the clone, and
additionally performs the source line 2722 assignment oldColumn.name =
newColumn.name, which mutates the column object inside the CACHED table
before executeQueries runs; the primary-flag and unique-constraint
updates stay on the clone.  All remaining branches of the source emit
query text only. -/
def changeColumnModel (ns : NamingStrategy) (ddlOk : Bool) (cache : SchemaCache)
    (tableName : String) (oldColumnName : String) (newColumn : TableColumn) :
    SchemaCache × Except RunnerError Unit :=
  match getCachedTable cache tableName with
  | none => (cache, Except.error RunnerError.tableNotFound)
  | some table =>
    match table.columns.find? (fun c => c.name == oldColumnName) with
    | none => (cache, Except.error RunnerError.columnNotFound)
    | some oldColumn =>
      let clonedTable := table
      if oldColumn.type ≠ newColumn.type ∨ oldColumn.length ≠ newColumn.length
          ∨ newColumn.isArray ≠ oldColumn.isArray
          ∨ (¬ jsTruthy oldColumn.generatedType = true ∧ newColumn.generatedType = some "STORED")
          ∨ (oldColumn.asExpression ≠ newColumn.asExpression ∧ newColumn.generatedType = some "STORED") then
        let step1 := dropColumnCore ns ddlOk cache table oldColumn.name
        match step1.2 with
        | Except.error e => (step1.1, Except.error e)
        | Except.ok _ =>
          let step2 := addColumnCore ns ddlOk step1.1 table newColumn
          match step2.2 with
          | Except.error e => (step2.1, Except.error e)
          | Except.ok _ =>
            let clonedTable := table
            (replaceCachedTable step2.1 table clonedTable, Except.ok ())
      else
        let renameApplied := oldColumn.name ≠ newColumn.name
        let clonedTable :=
          if renameApplied then
            let afterUniques :=
              { clonedTable with uniques := clonedTable.uniques.map fun (u : TableUnique) =>
                  if u.columnNames.contains oldColumn.name ∧ u.name = ns.uniqueConstraintName clonedTable.name u.columnNames then
                    { name := ns.uniqueConstraintName clonedTable.name (u.columnNames.erase oldColumn.name ++ [newColumn.name]), columnNames := u.columnNames.erase oldColumn.name ++ [newColumn.name] }
                  else u }
            let afterIndices :=
              { afterUniques with indices := afterUniques.indices.map fun (idx : TableIndex) =>
                  if idx.columnNames.contains oldColumn.name ∧ idx.name = ns.indexName clonedTable.name idx.columnNames idx.whereCondition then
                    { idx with name := ns.indexName clonedTable.name (idx.columnNames.erase oldColumn.name ++ [newColumn.name]) idx.whereCondition, columnNames := idx.columnNames.erase oldColumn.name ++ [newColumn.name] }
                  else idx }
            let afterForeignKeys :=
              { afterIndices with foreignKeys := afterIndices.foreignKeys.map fun (fk : TableForeignKey) =>
                  if fk.columnNames.contains oldColumn.name ∧ fk.name = ns.foreignKeyName clonedTable.name fk.columnNames (getTablePath fk) fk.referencedColumnNames then
                    { fk with name := ns.foreignKeyName clonedTable.name (fk.columnNames.erase oldColumn.name ++ [newColumn.name]) (getTablePath fk) fk.referencedColumnNames, columnNames := fk.columnNames.erase oldColumn.name ++ [newColumn.name] }
                  else fk }
            { afterForeignKeys with columns := afterForeignKeys.columns.map fun (cc : TableColumn) =>
                if cc.name == oldColumn.name then { cc with name := newColumn.name } else cc }
          else clonedTable
        let cacheMid :=
          if renameApplied then
            { loadedTables := cache.loadedTables.map fun t =>
                if t.name == table.name then
                  { t with columns := t.columns.map fun cc =>
                      if cc.name == oldColumn.name then { cc with name := newColumn.name } else cc }
                else t }
          else cache
        let clonedTable :=
          if newColumn.isPrimary ≠ oldColumn.isPrimary then
            { clonedTable with columns := clonedTable.columns.map fun cc =>
                if cc.name == newColumn.name then { cc with isPrimary := newColumn.isPrimary } else cc }
          else clonedTable
        let clonedTable :=
          if newColumn.isUnique ≠ oldColumn.isUnique then
            if newColumn.isUnique then
              { clonedTable with uniques := clonedTable.uniques ++ [{ name := ns.uniqueConstraintName table.name [newColumn.name], columnNames := [newColumn.name] }] }
            else
              { clonedTable with uniques := clonedTable.uniques.eraseP fun u => u.columnNames == [newColumn.name] }
          else clonedTable
        if ddlOk then
          (replaceCachedTable cacheMid table clonedTable, Except.ok ())
        else
          (cacheMid, Except.error RunnerError.ddlFailed)

/-- Concrete naming strategy for the C3 theorems. -/
def nsEx : NamingStrategy :=
  { primaryKeyName := fun tableName columnNames => "PK_" ++ tableName ++ "_" ++ String.intercalate "_" columnNames,
    uniqueConstraintName := fun tableName columnNames => "UQ_" ++ tableName ++ "_" ++ String.intercalate "_" columnNames,
    indexName := fun tableName columnNames _ => "IDX_" ++ tableName ++ "_" ++ String.intercalate "_" columnNames,
    foreignKeyName := fun tableName columnNames _ _ => "FK_" ++ tableName ++ "_" ++ String.intercalate "_" columnNames }

/-- Varchar column named a. -/
def colA : TableColumn :=
  { blankTableColumn with name := "a", type := "varchar", length := "255" }

/-- The same column renamed to b (same type and length, so changeColumn
takes its in-place rename path). -/
def colB : TableColumn := { colA with name := "b" }

/-- Cached table holding column a. -/
def postTable : Table :=
  { name := "post", columns := [colA], uniques := [], indices := [],
    checks := [], foreignKeys := [] }

/-- Cache holding postTable. -/
def cacheEx : SchemaCache := { loadedTables := [postTable] }

/-- C3 counterexample: changeColumn resolving the old column by name from
the cached table renames that column object in place (source line 2722)
before executeQueries runs, so when the DDL fails the cached Table is NOT
left as it was: the cache now holds the renamed column. -/
theorem c3_change_column_mutates_cache_on_failed_ddl :
    (changeColumnModel nsEx false cacheEx "post" "a" colB).2
        = Except.error RunnerError.ddlFailed
    ∧ (changeColumnModel nsEx false cacheEx "post" "a" colB).1 ≠ cacheEx
    ∧ (changeColumnModel nsEx false cacheEx "post" "a" colB).1
        = { loadedTables := [{ postTable with columns := [colB] }] } := by
  refine ⟨rfl, by decide, by decide⟩

/-- C3 (amended): addColumn and dropColumn mutate only a clone of the
cached Table and replace the cached entry only after the DDL execution
succeeds, so a failing executeQueries leaves the cache exactly as before
the call; changeColumn however renames the resolved cached column in
place before executing DDL (see the counterexample), so the claim holds
for addColumn and dropColumn but not for changeColumn. -/
theorem c3_add_drop_cache_unchanged_on_error (ns : NamingStrategy)
    (cache : SchemaCache) (tableName : String) (column : TableColumn)
    (columnName : String) :
    (addColumnModel ns false cache tableName column).1 = cache
    ∧ (dropColumnModel ns false cache tableName columnName).1 = cache := by
  constructor
  · unfold addColumnModel
    cases h : getCachedTable cache tableName with
    | none => rfl
    | some table => simp [addColumnCore]
  · unfold dropColumnModel
    cases h : getCachedTable cache tableName with
    | none => rfl
    | some table =>
      show (dropColumnCore ns false cache table columnName).1 = cache
      unfold dropColumnCore
      cases hc : table.columns.find? (fun c => c.name == columnName) with
      | none => rfl
      | some column => rfl

end Typeorm
